import Mathlib

/-!
Verification development for the NTS-KE implementation in
`net/ntske/ntske.go`.  The record packers, the decode loop `Read`, the
key exporter `ExportKeys`, and the TCP-connection helpers
`NewTCPListener` / `ConnectTCP` are modelled as pure Lean functions:
byte streams become `List Nat` (each entry a byte value), `uint16`
values become `Nat` with explicit `% 2 ^ 16` where Go truncates, the
mutable `Data` accumulator is passed and returned explicitly, and every
fallible operation returns an `Except`.
-/

namespace Ntske

/-- Go `type Data struct`: negotiated data from the key exchange.  Go
strings and byte slices are modelled as lists of byte values; the zero
value of each field matches the Go zero value (`nil` slices and the empty
string become `[]`, integers become `0`). -/
structure Data where
  C2sKey : List Nat := []
  S2cKey : List Nat := []
  Server : List Nat := []
  Port : Nat := 0
  Cookie : List (List Nat) := []
  Algo : Nat := 0
  deriving Repr, DecidableEq

/-- NTS-KE record type code `RecEom = 0`. -/
def RecEom : Nat := 0

/-- NTS-KE record type code `RecNextproto = 1`. -/
def RecNextproto : Nat := 1

/-- NTS-KE record type code `RecError = 2`. -/
def RecError : Nat := 2

/-- NTS-KE record type code `RecWarning = 3`. -/
def RecWarning : Nat := 3

/-- NTS-KE record type code `RecAead = 4`. -/
def RecAead : Nat := 4

/-- NTS-KE record type code `RecCookie = 5`. -/
def RecCookie : Nat := 5

/-- NTS-KE record type code `RecServer = 6`. -/
def RecServer : Nat := 6

/-- NTS-KE record type code `RecPort = 7`. -/
def RecPort : Nat := 7

/-- Go constant `AES_SIV_CMAC_256 = 0x0f`. -/
def AES_SIV_CMAC_256 : Nat := 0x0f

/-- Go constant `DEFAULT_NTSKE_PORT = 4460`. -/
def DEFAULT_NTSKE_PORT : Nat := 4460

/-- Go constant `DEFAULT_NTP_PORT = 123`. -/
def DEFAULT_NTP_PORT : Nat := 123

/-- Go constant `alpn = "ntske/1"`. -/
def alpn : String := "ntske/1"

/-- Go `hasBit`: `n & (1 << pos) > 0`, i.e. bit `pos` of `n` is set. -/
def hasBit (n pos : Nat) : Bool := n / 2 ^ pos % 2 == 1

/-- Go `setBit`: `n | (1 << pos)`. -/
def setBit (n pos : Nat) : Nat := if hasBit n pos then n else n + 2 ^ pos

/-- Go `msg.Type &^= (1 << 15)`: clear bit 15. -/
def clearBit15 (n : Nat) : Nat := if hasBit n 15 then n - 2 ^ 15 else n

/-- Big-endian combination of two bytes into a `uint16`, as
`binary.Read`/`binary.BigEndian` produce for a 2-byte field. -/
def be16 (a b : Nat) : Nat := a * 256 + b

/-- Big-endian byte encoding of a `uint16`, as `binary.Write` produces. -/
def encU16 (v : Nat) : List Nat := [v / 256 % 256, v % 256]

/-- Go `packheader`: build a `RecordHdr` with type `t` (critical bit set
iff `c`) and body length `uint16(bodylen)`, serialized big-endian by
`RecordHdr.pack`. -/
def packheader (t : Nat) (c : Bool) (bodylen : Nat) : List Nat :=
  encU16 (if c then setBit t 15 else t) ++ encU16 (bodylen % 2 ^ 16)

/-- Go `packsimple`: serialize the payload, then the header carrying
the length of the payload, then append the payload. -/
def packsimple (t : Nat) (c : Bool) (value : List Nat) : List Nat :=
  packheader t c value.length ++ value

/-- The record variants of ntske.go (`NextProto`, `End`, `Server`,
`Port`, `Cookie`, `Warning`, `Error`, `Algorithm`), replacing the Go
`Record` interface by a sum type.  Payloads that Go stores as `uint16`
are `Nat`; byte-slice payloads are byte lists. -/
inductive Rec
  | nextProto (v : Nat)
  | eom
  | server (addr : List Nat) (critical : Bool)
  | port (v : Nat) (critical : Bool)
  | cookie (c : List Nat)
  | warning (code : Nat)
  | err (code : Nat)
  | algorithm (algo : List Nat)
  deriving Repr, DecidableEq

/-- Wire encoding of each record variant: the `pack` methods of
ntske.go.  `NextProto.pack` inlines the same logic as `packsimple` with
the critical bit forced; `End.pack` is `packheader(RecEom, true, 0)`;
`Algorithm.pack` serializes its `[]uint16` element-wise big-endian. -/
def Rec.pack : Rec → List Nat
  | Rec.nextProto v => packsimple RecNextproto true (encU16 v)
  | Rec.eom => packheader RecEom true 0
  | Rec.server addr c => packsimple RecServer c addr
  | Rec.port v c => packsimple RecPort c (encU16 v)
  | Rec.cookie c => packsimple RecCookie false c
  | Rec.warning code => packsimple RecWarning true (encU16 code)
  | Rec.err code => packsimple RecError true (encU16 code)
  | Rec.algorithm a => packsimple RecAead true (a.flatMap encU16)

/-- Go `ExchangeMsg`: an ordered list of records. -/
structure ExchangeMsg where
  Record : List Rec
  deriving Repr, DecidableEq

/-- Go `ExchangeMsg.Pack`: concatenate the encoding of each record in list
order.  (`binary.Write` cannot fail on the fixed-size payload types the
record packers pass it, so the Go error path is dead and the model is
total.) -/
def ExchangeMsg.Pack (m : ExchangeMsg) : List Nat :=
  (m.Record.map Rec.pack).flatten

/-- The errors the decode loop `Read` can return: `ioErr` for a failed
header read (`binary.Read` surfacing `io.EOF`/`io.ErrUnexpectedEOF`),
`bufferOverrun` for `errors.New("buffer overrun")` on a failed body
read, and `unsupportedCritical t` for
`fmt.Errorf("unknown record type %v with critical bit set", t)`. -/
inductive RdErr
  | ioErr
  | bufferOverrun
  | unsupportedCritical (t : Nat)
  deriving Repr, DecidableEq

/-- Go `Read`: the decode loop.  The `bufio.Reader` is modelled as the
list of bytes the peer has written (all of it available to the reader);
the function returns the Go return value, the final `Data`, and the
bytes left unconsumed.  `binary.Read` performs a full read (fails if
fewer bytes remain than requested), while the `reader.Read` call of the Cookie case is a single `bufio.Reader.Read`: it fails only when no
byte is available at all, and otherwise delivers `min bodyLen remaining`
bytes into the zero-initialized `make([]byte, bodyLen)` slice, whose
tail stays zero (the short count is not checked by the Go code).  With
`bodyLen = 0` the `bufio` read returns no error.  On a failed body read
`io.ReadFull` has consumed whatever remained, so `[]` is returned as
the rest. -/
def Read : List Nat → Data → Except RdErr Unit × Data × List Nat
  | a :: b :: c :: e :: rest, d =>
    if clearBit15 (be16 a b) = RecEom then
      (Except.ok (), d, rest)
    else if clearBit15 (be16 a b) = RecNextproto then
      if 2 ≤ rest.length then Read (rest.drop 2) d
      else (Except.error RdErr.bufferOverrun, d, [])
    else if clearBit15 (be16 a b) = RecAead then
      if 2 ≤ rest.length then
        Read (rest.drop 2) { d with Algo := be16 (rest.getD 0 0) (rest.getD 1 0) }
      else (Except.error RdErr.bufferOverrun, d, [])
    else if clearBit15 (be16 a b) = RecCookie then
      if be16 c e = 0 then
        Read rest { d with Cookie := d.Cookie ++ [[]] }
      else if rest.length = 0 then
        (Except.error RdErr.bufferOverrun, d, [])
      else
        Read (rest.drop (be16 c e))
          { d with Cookie :=
              d.Cookie ++ [rest.take (be16 c e) ++ List.replicate (be16 c e - rest.length) 0] }
    else if clearBit15 (be16 a b) = RecServer then
      if be16 c e ≤ rest.length then
        Read (rest.drop (be16 c e)) { d with Server := rest.take (be16 c e) }
      else (Except.error RdErr.bufferOverrun, d, [])
    else if clearBit15 (be16 a b) = RecPort then
      if 2 ≤ rest.length then
        Read (rest.drop 2) { d with Port := be16 (rest.getD 0 0) (rest.getD 1 0) }
      else (Except.error RdErr.bufferOverrun, d, [])
    else
      if hasBit (be16 a b) 15 then
        (Except.error (RdErr.unsupportedCritical (clearBit15 (be16 a b))), d, rest)
      else if be16 c e ≤ rest.length then
        Read (rest.drop (be16 c e)) d
      else (Except.error RdErr.bufferOverrun, d, [])
  | [], d => (Except.error RdErr.ioErr, d, [])
  | [_], d => (Except.error RdErr.ioErr, d, [])
  | [_, _], d => (Except.error RdErr.ioErr, d, [])
  | [_, _, _], d => (Except.error RdErr.ioErr, d, [])
termination_by s d => s.length
decreasing_by all_goals (simp; omega)

/-- Go `label`, `s2cContext`, `c2sContext` and key length from
`ExportKeys`. -/
def exporterLabel : String := "EXPORTER-network-time-security"

/-- Context bytes for the server-to-client key export. -/
def s2cContext : List Nat := [0x00, 0x00, 0x00, 0x0f, 0x01]

/-- Context bytes for the client-to-server key export. -/
def c2sContext : List Nat := [0x00, 0x00, 0x00, 0x0f, 0x00]

/-- Go `ExportKeys`: derive the two session keys from the TLS
connection state.  `cs.ExportKeyingMaterial` is abstracted as the
function argument `ekm` (label, context, length); on failure the Go
multiple assignment still stores the `nil` slice it returned, modelled
as `[]`.  The `Data` pointer becomes explicit state passing: the
returned `Data` is the struct of the caller after the call. -/
def ExportKeys (ekm : String → List Nat → Nat → Except Unit (List Nat))
    (d : Data) : Except Unit Unit × Data :=
  match ekm exporterLabel s2cContext 32 with
  | Except.error e => (Except.error e, { d with S2cKey := [] })
  | Except.ok k1 =>
    match ekm exporterLabel c2sContext 32 with
    | Except.error e => (Except.error e, { d with S2cKey := k1, C2sKey := [] })
    | Except.ok k2 => (Except.ok (), { d with S2cKey := k1, C2sKey := k2 })

/-- A TLS connection, reduced to the one attribute the ntske code
inspects: the ALPN protocol negotiated during the handshake
(`ConnectionState().NegotiatedProtocol`). -/
structure TLSConn where
  negotiatedProtocol : String
  deriving Repr, DecidableEq

/-- Errors of the TCP helpers, replacing the `fmt.Errorf` values. -/
inductive TCPErr
  | acceptFailed
  | notTLSConn
  | splitHostPortFailed
  | dialFailed
  | remoteAddrIssue
  | serverNotSpeakingNtske
  deriving Repr, DecidableEq

/-- Go `NewTCPListener`: `listener.Accept()` followed by the
`conn.(*tls.Conn)` type assertion.  The listener is abstracted as the
outcome of that accept: `Except.error` when `Accept` fails,
`Except.ok none` when the accepted conn is not a `*tls.Conn`, and
`Except.ok (some c)` otherwise.  The ALPN check on the accepted
connection is commented out in the source, so none appears here. -/
def NewTCPListener (accepted : Except Unit (Option TLSConn)) :
    Except TCPErr TLSConn :=
  match accepted with
  | Except.error _ => Except.error TCPErr.acceptFailed
  | Except.ok none => Except.error TCPErr.notTLSConn
  | Except.ok (some c) => Except.ok c

/-- Go `tls.Config`, reduced to the one field ntske.go touches. -/
structure TLSConfig where
  NextProtos : List String := []
  deriving Repr, DecidableEq

/-- Outcome of `net.SplitHostPort(hostport)` in `ConnectTCP`: success,
the recoverable missing-port error, or any other error. -/
inductive SplitResult
  | ok
  | missingPort
  | failOther
  deriving Repr, DecidableEq

/-- Go `ConnectTCP`.  External collaborators are abstracted as inputs:
`split` is the `net.SplitHostPort` outcome on the given host:port,
`dial` the `tls.DialWithDialer` outcome, and `remoteHost` the host part
of `conn.RemoteAddr()` (as bytes of the Go string, `Except.error` when
that second `SplitHostPort` fails).  The `*tls.Config` of the caller is
explicit state: the first component of the result is the config as the
caller observes it after the call, in every branch. -/
def ConnectTCP (split : SplitResult) (dial : Except Unit TLSConn)
    (remoteHost : Except Unit (List Nat)) (config : TLSConfig) :
    TLSConfig × Except TCPErr (TLSConn × Data) :=
  let config := { config with NextProtos := [alpn] }
  match split with
  | SplitResult.failOther => (config, Except.error TCPErr.splitHostPortFailed)
  | _ =>
    match dial with
    | Except.error _ => (config, Except.error TCPErr.dialFailed)
    | Except.ok conn =>
      match remoteHost with
      | Except.error _ => (config, Except.error TCPErr.remoteAddrIssue)
      | Except.ok host =>
        let data : Data := { Server := host, Port := DEFAULT_NTP_PORT }
        if conn.negotiatedProtocol ≠ alpn then
          (config, Except.error TCPErr.serverNotSpeakingNtske)
        else
          (config, Except.ok (conn, data))

/-- Records that the decode loop consumes exactly as packed, so that
decoding continues behind them: NextProtocol, a single-id AEAD list,
Cookie, Server and Port.  (Packed Warning and Error records hit the
default case of the decode switch, and an AEAD list that is not a
single id is consumed only partially.) -/
def Consumable : Rec → Bool
  | Rec.nextProto _ => true
  | Rec.cookie c => decide (c.length < 2 ^ 16)
  | Rec.server addr _ => decide (addr.length < 2 ^ 16)
  | Rec.port v _ => decide (v < 2 ^ 16)
  | Rec.algorithm a =>
    match a with
    | [x] => decide (x < 2 ^ 16)
    | _ => false
  | _ => false

/-- A keying-material exporter that succeeds for the server-to-client
context and fails for the client-to-server context, used to exercise
`ExportKeys` when the first export succeeds and the second fails. -/
def ekmFirstOnly : String → List Nat → Nat → Except Unit (List Nat) :=
  fun _ ctx _ =>
    if ctx = s2cContext then Except.ok (List.replicate 32 1) else Except.error ()

/-! Theorems.  Claims C1 through C10 of the specification are settled
against the model above. -/

/-- C1 (code behavior at the failing input): decoding a Cookie record
whose header declares 4 payload bytes while the stream delivers only 2
bytes (`AA BB`) does return an error, but first appends the
partially-filled, zero-padded cookie `AA BB 00 00` to `Data.Cookie`,
because the short count of the single `reader.Read` call is ignored.
The claim (and the spec) requires that no partially-filled cookie be
appended. -/
theorem claim_C1_partial_cookie_appended :
    Read [0x00, 0x05, 0x00, 0x04, 0xAA, 0xBB] {} =
      (Except.error RdErr.ioErr, { Cookie := [[0xAA, 0xBB, 0, 0]] }, []) := by
  simp [Read, clearBit15, hasBit, be16, RecEom, RecNextproto, RecAead, RecCookie,
    RecServer, RecPort]

/-- C2 (counterexample): with an exporter whose first
(server-to-client) call succeeds and second (client-to-server) call
fails, `ExportKeys` returns the error but leaves the exported
server-to-client key in the `Data` struct, so it is not the case that
both key fields are left unset. -/
theorem claim_C2_counterexample :
    (ExportKeys ekmFirstOnly {}).1 = Except.error () ∧
    (ExportKeys ekmFirstOnly {}).2.S2cKey = List.replicate 32 1 ∧
    (ExportKeys ekmFirstOnly {}).2.S2cKey ≠ [] := by
  refine ⟨rfl, rfl, ?_⟩
  decide

/-- C2 (amended): either failing export call makes `ExportKeys` return
that error (the underlying export error, no dedicated value).  When the
first (server-to-client) call fails, both key fields are nil
afterwards; but when it succeeds and the second (client-to-server) call
fails, the server-to-client key remains stored in `Data` while only the
client-to-server key is nil. -/
theorem claim_C2_amended (ekm : String → List Nat → Nat → Except Unit (List Nat))
    (d : Data) :
    (∀ e, ekm exporterLabel s2cContext 32 = Except.error e →
      (ExportKeys ekm d).1 = Except.error e ∧
      (ExportKeys ekm d).2.S2cKey = [] ∧
      (ExportKeys ekm d).2.C2sKey = d.C2sKey) ∧
    (∀ k1 e, ekm exporterLabel s2cContext 32 = Except.ok k1 →
      ekm exporterLabel c2sContext 32 = Except.error e →
      (ExportKeys ekm d).1 = Except.error e ∧
      (ExportKeys ekm d).2.S2cKey = k1 ∧
      (ExportKeys ekm d).2.C2sKey = []) := by
  constructor
  · intro e he
    simp [ExportKeys, he]
  · intro k1 e h1 h2
    simp [ExportKeys, h1, h2]

/-- C2 (witness for the amended theorem): the amended theorem applied
to the concrete exporter `ekmFirstOnly` and the empty `Data`. -/
theorem claim_C2_witness :
    (ExportKeys ekmFirstOnly {}).1 = Except.error () ∧
    (ExportKeys ekmFirstOnly {}).2.S2cKey = List.replicate 32 1 ∧
    (ExportKeys ekmFirstOnly {}).2.C2sKey = [] :=
  (claim_C2_amended ekmFirstOnly {}).2 (List.replicate 32 1) () rfl rfl

/-- C3: a record whose masked type code is unknown (outside the eight
known codes, here any code at least 8) and whose critical bit is set
makes the decode loop fail with the unsupported-critical-record error
carrying that type code, for any declared body length and any following
bytes, without reading past the 4-byte header and without touching the
negotiated data. -/
theorem claim_C3_unknown_critical (t L : Nat) (s : List Nat) (d : Data)
    (ht8 : 8 ≤ t) (ht : t < 2 ^ 15) (hL : L < 2 ^ 16) :
    Read ((t + 2 ^ 15) / 256 :: (t + 2 ^ 15) % 256 :: L / 256 :: L % 256 :: s) d =
      (Except.error (RdErr.unsupportedCritical t), d, s) := by
  have hbe : be16 ((t + 32768) / 256) ((t + 32768) % 256) = t + 32768 := by
    simp only [be16]
    omega
  have hcrit : hasBit (t + 32768) 15 = true := by
    simp [hasBit]
    omega
  have hclear : clearBit15 (t + 32768) = t := by
    simp [clearBit15, hcrit]
  have h0 : ¬ t = RecEom := by simp only [RecEom]; omega
  have h1 : ¬ t = RecNextproto := by simp only [RecNextproto]; omega
  have h4 : ¬ t = RecAead := by simp only [RecAead]; omega
  have h5 : ¬ t = RecCookie := by simp only [RecCookie]; omega
  have h6 : ¬ t = RecServer := by simp only [RecServer]; omega
  have h7 : ¬ t = RecPort := by simp only [RecPort]; omega
  simp [Read, hbe, hcrit, hclear, h0, h1, h4, h5, h6, h7]

/-- C3 (witness): the theorem at type code 9, declared length 500,
trailing bytes `[1, 2, 3]` and empty data. -/
theorem claim_C3_witness :
    Read ((9 + 2 ^ 15) / 256 :: (9 + 2 ^ 15) % 256 :: 500 / 256 :: 500 % 256 :: [1, 2, 3]) {} =
      (Except.error (RdErr.unsupportedCritical 9), {}, [1, 2, 3]) :=
  claim_C3_unknown_critical 9 500 [1, 2, 3] {} (by decide) (by decide) (by decide)

/-- C5 (counterexample): a NextProtocol record whose header declares
body length 5 (not 2) is not rejected: the decoder reads exactly 2
payload bytes regardless of the declared length, keeps going, and the
stream decodes successfully. -/
theorem claim_C5_counterexample :
    Read [0x80, 0x01, 0x00, 0x05, 0x00, 0x00, 0x80, 0x00, 0x00, 0x00] {} =
      (Except.ok (), {}, []) := by
  simp [Read, clearBit15, hasBit, be16, RecEom, RecNextproto, RecAead, RecCookie,
    RecServer, RecPort]

/-- C5 (amended): for the fixed-size records (NextProtocol, AEAD,
Port) the decoder ignores the declared body length entirely and
unconditionally reads exactly 2 payload bytes: whatever length `L` the
header declares, a record with 2 payload bytes followed by an
End-of-Message record decodes successfully, with the AEAD and Port
values taken from those 2 bytes. -/
theorem claim_C5_amended (L x y : Nat) (d : Data) (hL : L < 2 ^ 16) :
    Read (0x80 :: 0x01 :: L / 256 :: L % 256 :: x :: y :: [0x80, 0x00, 0x00, 0x00]) d =
      (Except.ok (), d, []) ∧
    Read (0x80 :: 0x04 :: L / 256 :: L % 256 :: x :: y :: [0x80, 0x00, 0x00, 0x00]) d =
      (Except.ok (), { d with Algo := be16 x y }, []) ∧
    Read (0x80 :: 0x07 :: L / 256 :: L % 256 :: x :: y :: [0x80, 0x00, 0x00, 0x00]) d =
      (Except.ok (), { d with Port := be16 x y }, []) := by
  refine ⟨?_, ?_, ?_⟩ <;>
    simp [Read, clearBit15, hasBit, be16, RecEom, RecNextproto, RecAead, RecCookie,
      RecServer, RecPort]

/-- C5 (witness for the amended theorem): declared length 5, payload
bytes `0x12 0x34`, empty data. -/
theorem claim_C5_witness :
    Read (0x80 :: 0x01 :: 5 / 256 :: 5 % 256 :: 0x12 :: 0x34 :: [0x80, 0x00, 0x00, 0x00]) {} =
      (Except.ok (), {}, []) :=
  (claim_C5_amended 5 0x12 0x34 {} (by decide)).1

/-- Reading back the big-endian bytes of a `uint16` value yields the
value. -/
theorem be16_encU16 (v : Nat) (hv : v < 2 ^ 16) :
    be16 (v / 256 % 256) (v % 256) = v := by
  simp only [be16]
  omega

/-- Decoding a packed End record succeeds immediately, leaving data and
the following bytes untouched. -/
theorem read_eom_step (S : List Nat) (d : Data) :
    Read (Rec.pack Rec.eom ++ S) d = (Except.ok (), d, S) := by
  simp [Rec.pack, packheader, encU16, setBit, hasBit, Read, clearBit15, be16, RecEom]

/-- Decoding a packed End record at the end of the stream. -/
theorem read_eom_nil (d : Data) : Read (Rec.pack Rec.eom) d = (Except.ok (), d, []) := by
  have h := read_eom_step [] d
  simpa using h

/-- Decoding a packed NextProto record consumes exactly its bytes and
changes nothing. -/
theorem read_nextproto_step (v : Nat) (S : List Nat) (d : Data) :
    Read (Rec.pack (Rec.nextProto v) ++ S) d = Read S d := by
  simp [Rec.pack, packsimple, packheader, encU16, setBit, hasBit, Read, clearBit15, be16,
    RecEom, RecNextproto]

/-- Decoding a packed single-id Algorithm record consumes exactly its
bytes and stores the id. -/
theorem read_algorithm1_step (x : Nat) (S : List Nat) (d : Data) (hx : x < 2 ^ 16) :
    Read (Rec.pack (Rec.algorithm [x]) ++ S) d = Read S { d with Algo := x } := by
  have hb := be16_encU16 x hx
  simp [Rec.pack, packsimple, packheader, encU16, setBit, hasBit, Read, clearBit15, be16,
    RecEom, RecNextproto, RecAead]
  simp only [be16] at hb
  simp [hb]

/-- Decoding a packed Port record consumes exactly its bytes and stores
the port. -/
theorem read_port_step (v : Nat) (crit : Bool) (S : List Nat) (d : Data)
    (hv : v < 2 ^ 16) :
    Read (Rec.pack (Rec.port v crit) ++ S) d = Read S { d with Port := v } := by
  have hb := be16_encU16 v hv
  cases crit <;>
    (simp [Rec.pack, packsimple, packheader, encU16, setBit, hasBit, Read, clearBit15, be16,
      RecEom, RecNextproto, RecAead, RecCookie, RecServer, RecPort]
     simp only [be16] at hb
     simp [hb])

/-- Decoding a packed Server record consumes exactly its bytes and
stores the address. -/
theorem read_server_step (addr : List Nat) (crit : Bool) (S : List Nat) (d : Data)
    (h : addr.length < 2 ^ 16) :
    Read (Rec.pack (Rec.server addr crit) ++ S) d = Read S { d with Server := addr } := by
  have hb : addr.length % 65536 / 256 % 256 * 256 + addr.length % 65536 % 256
      = addr.length := by omega
  have hle : addr.length ≤ addr.length + S.length := by omega
  cases crit <;>
    simp [Rec.pack, packsimple, packheader, encU16, setBit, hasBit, Read, clearBit15, be16,
      RecEom, RecNextproto, RecAead, RecCookie, RecServer, hb, hle,
      List.take_left, List.drop_left]

/-- Decoding a packed Cookie record consumes exactly its bytes and
appends the cookie. -/
theorem read_cookie_step (c S : List Nat) (d : Data) (h : c.length < 2 ^ 16) :
    Read (Rec.pack (Rec.cookie c) ++ S) d = Read S { d with Cookie := d.Cookie ++ [c] } := by
  by_cases hc : c.length = 0
  · have : c = [] := List.eq_nil_of_length_eq_zero hc
    subst this
    simp [Rec.pack, packsimple, packheader, encU16, setBit, hasBit, Read, clearBit15, be16,
      RecEom, RecNextproto, RecAead, RecCookie]
  · have hb : c.length % 65536 / 256 % 256 * 256 + c.length % 65536 % 256 = c.length := by
      omega
    have hb0 : ¬ (c.length % 65536 / 256 % 256 = 0 ∧ c.length % 65536 % 256 = 0) := by
      omega
    have hsub : c.length - (c.length + S.length) = 0 := by omega
    simp [Rec.pack, packsimple, packheader, encU16, setBit, hasBit, Read, clearBit15, be16,
      RecEom, RecNextproto, RecAead, RecCookie, hb, hb0, hsub, hc,
      List.take_left, List.drop_left]

/-- Decoding a sequence of packed Cookie records appends them all, in
order, and continues with the rest of the stream. -/
theorem read_cookie_records (cs : List (List Nat)) (S : List Nat) (d : Data)
    (h : ∀ c ∈ cs, c.length < 2 ^ 16) :
    Read ((cs.map (fun c => Rec.pack (Rec.cookie c))).flatten ++ S) d =
      Read S { d with Cookie := d.Cookie ++ cs } := by
  induction cs generalizing d with
  | nil => simp
  | cons c cs ih =>
    simp only [List.map_cons, List.flatten_cons, List.append_assoc]
    rw [read_cookie_step c _ d (h c (List.mem_cons_self c cs))]
    rw [ih _ (fun x hx => h x (List.mem_cons_of_mem c hx))]
    simp

/-- C4: a record with an unknown masked type code (at least 8) and the
critical bit clear, carrying any payload of exactly the declared
length, is silently skipped: with a valid End record after it the
decode loop succeeds and the negotiated data is returned unchanged. -/
theorem claim_C4_noncritical_skip (t : Nat) (payload s : List Nat) (d : Data)
    (ht8 : 8 ≤ t) (ht : t < 2 ^ 15) (hL : payload.length < 2 ^ 16) :
    Read (t / 256 :: t % 256 :: payload.length / 256 :: payload.length % 256 ::
        (payload ++ 0x80 :: 0x00 :: 0x00 :: 0x00 :: s)) d =
      (Except.ok (), d, s) := by
  have hA : t / 256 * 256 + t % 256 = t := by omega
  have hcritn : ¬ t / 32768 % 2 = 1 := by omega
  have hB : payload.length / 256 * 256 + payload.length % 256 = payload.length := by omega
  have hle : payload.length ≤ payload.length + (s.length + 1 + 1 + 1 + 1) := by omega
  have h0 : ¬ t = 0 := by omega
  have h1 : ¬ t = 1 := by omega
  have h4 : ¬ t = 4 := by omega
  have h5 : ¬ t = 5 := by omega
  have h6 : ¬ t = 6 := by omega
  have h7 : ¬ t = 7 := by omega
  simp [Read, clearBit15, hasBit, be16, RecEom, RecNextproto, RecAead, RecCookie,
    RecServer, RecPort, hA, hcritn, hB, hle, h0, h1, h4, h5, h6, h7, List.drop_left]

/-- C4 (witness): unknown type 9, critical bit clear, a 2-byte payload,
then End, then one trailing byte. -/
theorem claim_C4_witness :
    Read (9 / 256 :: 9 % 256 :: 2 / 256 :: 2 % 256 ::
        ([7, 8] ++ 0x80 :: 0x00 :: 0x00 :: 0x00 :: [1])) {} =
      (Except.ok (), {}, [1]) :=
  claim_C4_noncritical_skip 9 [7, 8] [1] {} (by decide) (by decide) (by decide)

/-- C8: decoding any number of fully-delivered Cookie records followed
by an End record succeeds and yields exactly those cookies, in receipt
order, none dropped or deduplicated. -/
theorem claim_C8_cookie_accumulation (cs : List (List Nat))
    (h : ∀ c ∈ cs, c.length < 2 ^ 16) :
    Read ((cs.map (fun c => Rec.pack (Rec.cookie c))).flatten ++ Rec.pack Rec.eom) {} =
      (Except.ok (), { Cookie := cs }, []) := by
  rw [read_cookie_records cs (Rec.pack Rec.eom) {} h, read_eom_nil]
  simp

/-- C8 (witness): two cookies `[AA]` and `[BB CC]`. -/
theorem claim_C8_witness :
    Read ((([[0xAA], [0xBB, 0xCC]].map (fun c => Rec.pack (Rec.cookie c))).flatten ++
        Rec.pack Rec.eom)) {} =
      (Except.ok (), { Cookie := [[0xAA], [0xBB, 0xCC]] }, []) :=
  claim_C8_cookie_accumulation [[0xAA], [0xBB, 0xCC]] (by decide)

/-- C7: packing the exchange message
`[NextProtocol(0), AEADAlgorithmList([0x0f]), End]` produces exactly
the bytes `80 01 00 02 00 00`, `80 04 00 02 00 0f`, `80 00 00 00`,
concatenated in list order. -/
theorem claim_C7_pack_concrete :
    ExchangeMsg.Pack ⟨[Rec.nextProto 0, Rec.algorithm [0x0f], Rec.eom]⟩ =
      [0x80, 0x01, 0x00, 0x02, 0x00, 0x00,
       0x80, 0x04, 0x00, 0x02, 0x00, 0x0f,
       0x80, 0x00, 0x00, 0x00] := by
  decide

/-- C9: the server-side accept helper performs no ALPN verification:
an accepted TLS connection is returned successfully whatever protocol
it negotiated, in particular one different from `"ntske/1"`. -/
theorem claim_C9_accept_without_alpn_check (p : String) (hp : p ≠ alpn) :
    NewTCPListener (Except.ok (some ⟨p⟩)) = Except.ok ⟨p⟩ := rfl

/-- C9 (witness): accepting a connection that negotiated `"http/2"`. -/
theorem claim_C9_witness :
    NewTCPListener (Except.ok (some ⟨"http/2"⟩)) = Except.ok ⟨"http/2"⟩ :=
  claim_C9_accept_without_alpn_check "http/2" (by decide)

/-- C10: `ConnectTCP` overwrites the `NextProtos` field of the
caller-supplied TLS config with the single entry `"ntske/1"` whatever
the field held before, and the caller observes the overwritten config
in every outcome, errors included. -/
theorem claim_C10_config_mutated (split : SplitResult) (dial : Except Unit TLSConn)
    (remoteHost : Except Unit (List Nat)) (config : TLSConfig) :
    (ConnectTCP split dial remoteHost config).1 = { config with NextProtos := [alpn] } := by
  cases split <;> cases dial <;> cases remoteHost <;>
    simp only [ConnectTCP] <;>
    first
      | rfl
      | (split <;> rfl)

/-- Splitting a 4-byte-header stream around a decomposition of a
dropped suffix. -/
theorem cons4_decomp {k : Nat} {rest pre tail : List Nat} {b0 b1 b2 b3 : Nat}
    {a b c e : Nat} (h : rest.drop k = pre ++ b0 :: b1 :: b2 :: b3 :: tail) :
    a :: b :: c :: e :: rest =
      (a :: b :: c :: e :: (rest.take k ++ pre)) ++ b0 :: b1 :: b2 :: b3 :: tail := by
  conv_lhs => rw [← List.take_append_drop k rest, h]
  simp

/-- Splitting a 4-byte-header stream around a decomposition of its
tail. -/
theorem cons4_decomp0 {rest pre tail : List Nat} {b0 b1 b2 b3 : Nat}
    {a b c e : Nat} (h : rest = pre ++ b0 :: b1 :: b2 :: b3 :: tail) :
    a :: b :: c :: e :: rest =
      (a :: b :: c :: e :: pre) ++ b0 :: b1 :: b2 :: b3 :: tail := by
  rw [h]
  simp

/-- A splitting of the stream `s` into a consumed prefix, a 4-byte
header whose masked type is the End-of-Message code, and the leftover
`tail`. -/
inductive EomSplit (s tail : List Nat) : Prop
  | mk (pre : List Nat) (b0 b1 b2 b3 : Nat)
      (split_eq : s = pre ++ b0 :: b1 :: b2 :: b3 :: tail)
      (eom : clearBit15 (be16 b0 b1) = RecEom) : EomSplit s tail

set_option maxRecDepth 8192 in
/-- The decode loop returns success only by consuming a 4-byte header
whose masked type code is the End-of-Message code, and it consumes
nothing after that header: every successful run splits the input into
the consumed prefix, an EOM header, and the unconsumed leftover. -/
theorem read_ok_implies_eom (s : List Nat) (d : Data) :
    (Read s d).1 = Except.ok () → EomSplit s (Read s d).2.2 := by
  induction s, d using Read.induct <;> intro hok <;>
    first
      | (try simp only [RecEom, RecNextproto, RecAead, RecCookie, RecServer, RecPort] at *
         simp [Read, RecEom, RecNextproto, RecAead, RecCookie, RecServer, RecPort, *] at hok
         done)
      | (rename_i a b c e rest d hty
         refine ⟨[], a, b, c, e, ?_, hty⟩
         simp [Read, hty])
      | (rename_i ih
         try simp only [RecEom, RecNextproto, RecAead, RecCookie, RecServer, RecPort] at *
         try simp only [List.getD_eq_getElem?_getD] at ih
         simp [Read, RecEom, RecNextproto, RecAead, RecCookie, RecServer, RecPort, *]
           at hok ⊢
         obtain ⟨pre, b0, b1, b2, b3, heq, hb⟩ := ih hok
         first
           | exact ⟨_, b0, b1, b2, b3, cons4_decomp heq, hb⟩
           | exact ⟨_, b0, b1, b2, b3, cons4_decomp0 heq, hb⟩)

/-- A stream consisting only of packed records that the decoder
consumes exactly (NextProtocol, single-id AEAD lists, Cookie, Server,
Port) and containing no End record is fully consumed and then fails
with the end-of-stream header-read error. -/
theorem read_consumables_no_eom (rs : List Rec) (d : Data)
    (h : ∀ r ∈ rs, Consumable r = true) :
    (Read ((rs.map Rec.pack).flatten) d).1 = Except.error RdErr.ioErr := by
  induction rs generalizing d with
  | nil => simp [Read]
  | cons r rs ih =>
    have hr := h r (List.mem_cons_self r rs)
    have hrs := fun x hx => h x (List.mem_cons_of_mem r hx)
    simp only [List.map_cons, List.flatten_cons, List.append_assoc]
    cases r with
    | nextProto v =>
      rw [read_nextproto_step]
      exact ih _ hrs
    | eom => simp [Consumable] at hr
    | server addr crit =>
      rw [read_server_step addr crit _ d (by simpa [Consumable] using hr)]
      exact ih _ hrs
    | port v crit =>
      rw [read_port_step v crit _ d (by simpa [Consumable] using hr)]
      exact ih _ hrs
    | cookie c =>
      rw [read_cookie_step c _ d (by simpa [Consumable] using hr)]
      exact ih _ hrs
    | warning code => simp [Consumable] at hr
    | err code => simp [Consumable] at hr
    | algorithm a =>
      match a, hr with
      | [x], hr =>
        rw [read_algorithm1_step x _ d (by simpa [Consumable] using hr)]
        exact ih _ hrs
      | [], hr => simp [Consumable] at hr
      | x :: y :: zs, hr => simp [Consumable] at hr

/-- C6 (counterexample): a stream holding exactly one packed Warning
record — a valid record of the protocol — ends before any
End-of-Message record, yet the decode loop fails with the
unsupported-critical-record error (there is no decode case for the
Warning and Error type codes), not with the end-of-stream
(TruncatedStream) error. -/
theorem claim_C6_counterexample :
    Rec.pack (Rec.warning 0) = [0x80, 0x03, 0x00, 0x02, 0x00, 0x00] ∧
    Read [0x80, 0x03, 0x00, 0x02, 0x00, 0x00] {} =
      (Except.error (RdErr.unsupportedCritical 3), {}, [0x00, 0x00]) ∧
    RdErr.unsupportedCritical 3 ≠ RdErr.ioErr ∧
    RdErr.unsupportedCritical 3 ≠ RdErr.bufferOverrun := by
  refine ⟨by decide, ?_, by decide, by decide⟩
  simp [Read, clearBit15, hasBit, be16, RecEom, RecNextproto, RecAead, RecCookie,
    RecServer, RecPort]

/-- C6 (amended): success is returned only upon consuming a header
whose masked type is the End-of-Message code (with nothing read past
it), and a stream of packed NextProtocol, single-id AEAD, Cookie,
Server and Port records with no End record is consumed entirely and
fails with the end-of-stream header-read error. -/
theorem claim_C6_amended :
    (∀ s d, (Read s d).1 = Except.ok () →
      ∃ pre b0 b1 b2 b3, s = pre ++ b0 :: b1 :: b2 :: b3 :: (Read s d).2.2 ∧
        clearBit15 (be16 b0 b1) = RecEom) ∧
    (∀ (rs : List Rec) (d : Data), (∀ r ∈ rs, Consumable r = true) →
      (Read ((rs.map Rec.pack).flatten) d).1 = Except.error RdErr.ioErr) :=
  ⟨fun s d hok => by
    obtain ⟨pre, b0, b1, b2, b3, heq, hb⟩ := read_ok_implies_eom s d hok
    exact ⟨pre, b0, b1, b2, b3, heq, hb⟩,
   read_consumables_no_eom⟩

/-- C6 (witness for the amended theorem): the first part applied to the
4-byte EOM stream, the second to a concrete End-less stream of one
NextProtocol, one Cookie and one Port record. -/
theorem claim_C6_witness :
    (∃ pre b0 b1 b2 b3,
      ([0x80, 0x00, 0x00, 0x00] : List Nat) =
        pre ++ b0 :: b1 :: b2 :: b3 :: (Read [0x80, 0x00, 0x00, 0x00] ({} : Data)).2.2 ∧
      clearBit15 (be16 b0 b1) = RecEom) ∧
    (Read (([Rec.nextProto 0, Rec.cookie [0xAA], Rec.port 4123 false].map Rec.pack).flatten)
      {}).1 = Except.error RdErr.ioErr :=
  ⟨claim_C6_amended.1 [0x80, 0x00, 0x00, 0x00] {}
      (by simp [Read, clearBit15, hasBit, be16, RecEom, RecNextproto, RecAead, RecCookie,
        RecServer, RecPort]),
   claim_C6_amended.2 [Rec.nextProto 0, Rec.cookie [0xAA], Rec.port 4123 false] {}
      (by decide)⟩

end Ntske
